import Mathlib

/-!
Verification of the railrepay-shared-libs wrapper packages.

Each TypeScript component is shallowly embedded as executable Lean
definitions: JS values that may be `undefined` become `Option`, thrown
exceptions become `Except`, and the effect of a method is a pure function of
its inputs plus an explicit outcome parameter for every external call the
method performs.  JS truthiness (`!x`, `x || y`, `x ?? y`) is modelled
explicitly, since several components use it to test for missing
configuration.
-/

set_option maxHeartbeats 1000000

namespace RailRepay

/-- JS truthiness of a possibly-absent string: `undefined` and the empty
string are falsy.  `truthyStr v` is the value when truthy, `none` otherwise,
so `a || b` on strings is `(truthyStr a).orElse (fun _ => b)`. -/
def truthyStr : Option String → Option String
  | none => none
  | some s => if s = "" then none else some s

/-- JS truthiness of a possibly-absent number: `undefined`, `0` (and `NaN`,
not representable here) are falsy. -/
def truthyInt : Option Int → Option Int
  | none => none
  | some n => if n = 0 then none else some n

@[simp] theorem truthyStr_none : truthyStr none = none := rfl

@[simp] theorem truthyStr_some (s : String) :
    truthyStr (some s) = if s = "" then none else some s := rfl

/-! ## Prometheus text-format parsing
(src/packages/metrics-pusher/src/pusher.ts, `parsePrometheusMetrics`)

The method splits the exposition text on `'\n'`, skips comment and blank
lines, and applies two JS regexes to each remaining line:

* name:  `^([a-zA-Z_:][a-zA-Z0-9_:]*)`
* value: `\s+([0-9.eE+-]+)(?:\s+\d+)?$`

A successful line stores `metrics[name] = parseFloat(value)` unless the
parse is `NaN`.  We embed the two regexes directly (leftmost match with
greedy backtracking, worked out below), `parseFloat` over exact rationals,
and the object write as last-write-wins on an association list. -/

/-- The whitespace class of JS `\s` (and of `String.prototype.trim`). -/
def isJsWs (ch : Char) : Bool :=
  [' ', '\t', '\n', '\r', '\x0b', '\x0c', '\u00A0', '\u1680', '\u2000',
    '\u2001', '\u2002', '\u2003', '\u2004', '\u2005', '\u2006', '\u2007',
    '\u2008', '\u2009', '\u200A', '\u2028', '\u2029', '\u202F', '\u205F',
    '\u3000', '\uFEFF'].contains ch

/-- The value-token class `[0-9.eE+-]` of the value regex. -/
def isValChar (ch : Char) : Bool :=
  ch.isDigit || ch = '.' || ch = 'e' || ch = 'E' || ch = '+' || ch = '-'

/-- The class `[a-zA-Z_:]` that may start a metric name. -/
def isNameStart (ch : Char) : Bool :=
  ch.isAlpha || ch = '_' || ch = ':'

/-- The class `[a-zA-Z0-9_:]` of metric-name continuation characters. -/
def isNameChar (ch : Char) : Bool :=
  isNameStart ch || ch.isDigit

/-- The name regex `^([a-zA-Z_:][a-zA-Z0-9_:]*)`: anchored at the start, it
matches iff the first character is a name-start character, and captures the
maximal run of name characters. -/
def nameMatch : List Char → Option (List Char)
  | [] => none
  | c :: rest =>
    if isNameStart c then some (c :: rest.takeWhile isNameChar) else none

/-- One attempt of the value regex `\s+([0-9.eE+-]+)(?:\s+\d+)?$` at a fixed
start position (the whole list).  Greedy matching with backtracking
degenerates to maximal runs here: the token class contains no whitespace, so
`\s+` must consume the whole whitespace run; a shorter token would leave a
token-class character adjacent, on which both `\s+` and `$` fail, so the
token is the maximal `[0-9.eE+-]` run; and the optional `\s+\d+` group can
only consume one whole whitespace run followed by digits running to the end
of the line. -/
def valueAttempt (cs : List Char) : Option (List Char) :=
  let ws := cs.takeWhile isJsWs
  let cs1 := cs.dropWhile isJsWs
  if ws.isEmpty then none
  else
    let tok := cs1.takeWhile isValChar
    let cs2 := cs1.dropWhile isValChar
    if tok.isEmpty then none
    else if cs2.isEmpty then some tok
    else
      let ws2 := cs2.takeWhile isJsWs
      let cs3 := cs2.dropWhile isJsWs
      if ws2.isEmpty then none
      else if cs3.isEmpty then none
      else if cs3.all Char.isDigit then some tok
      else none

/-- `line.match(/\s+([0-9.eE+-]+)(?:\s+\d+)?$/)`: the leftmost position at
which the attempt succeeds wins; attempts can only start on a whitespace
character (`\s+` fails instantly elsewhere). -/
def valueMatch : List Char → Option (List Char)
  | [] => none
  | c :: rest =>
    if isJsWs c then
      match valueAttempt (c :: rest) with
      | some tok => some tok
      | none => valueMatch rest
    else valueMatch rest

/-- Numeric value of a digit run. -/
def digitsToNat (ds : List Char) : Nat :=
  ds.foldl (fun n d => 10 * n + (d.toNat - 48)) 0

/-- JS `parseFloat`, restricted to inputs without leading whitespace and
without the `Infinity` word (the caller's token alphabet excludes both): the
longest prefix of the form `[+-]? (digits [. digits?] | . digits) ([eE]
[+-]? digits)?` is evaluated; `none` models `NaN` (no valid prefix).  Values
are exact rationals: the double rounding (and overflow to `Infinity`) of the
runtime is not modelled, and no claim here depends on it. -/
def jsParseFloat (cs : List Char) : Option ℚ :=
  let sgn : ℚ := if cs.head? = some '-' then -1 else 1
  let cs1 := if cs.head? = some '-' || cs.head? = some '+' then cs.tail else cs
  let ip := cs1.takeWhile Char.isDigit
  let cs2 := cs1.dropWhile Char.isDigit
  let fp : List Char :=
    match cs2 with
    | '.' :: rest => rest.takeWhile Char.isDigit
    | _ => []
  let cs3 : List Char :=
    match cs2 with
    | '.' :: rest => rest.dropWhile Char.isDigit
    | _ => cs2
  if ip.isEmpty && fp.isEmpty then none
  else
    let mant : ℚ :=
      sgn * ((digitsToNat ip : ℚ) + (digitsToNat fp : ℚ) / (10 : ℚ) ^ fp.length)
    let expo : ℤ :=
      match cs3 with
      | c :: rest =>
        if c = 'e' || c = 'E' then
          let (esgn, rest2) : ℤ × List Char :=
            match rest with
            | '+' :: r => (1, r)
            | '-' :: r => (-1, r)
            | _ => (1, rest)
          let eds := rest2.takeWhile Char.isDigit
          if eds.isEmpty then 0 else esgn * (digitsToNat eds : ℤ)
        else 0
      | [] => 0
    some (mant * (10 : ℚ) ^ expo)

/-- One iteration of the `parsePrometheusMetrics` loop body on a line
(without the trailing `'\n'`): skip comments (`startsWith('#')`) and blank
lines (`!line.trim()`); otherwise require both regexes to match and the
value to parse to a non-`NaN` number. -/
def parseLine (line : List Char) : Option (String × ℚ) :=
  if line.head? = some '#' then none
  else if line.all isJsWs then none
  else
    match nameMatch line, valueMatch line with
    | some nm, some tok =>
      match jsParseFloat tok with
      | some v => some (String.mk nm, v)
      | none => none
    | _, _ => none

/-- `metrics[name] = value` on a JS object viewed as an association list:
overwrite in place when the key exists, append otherwise. -/
def setKV (m : List (String × ℚ)) (k : String) (v : ℚ) : List (String × ℚ) :=
  if m.any (fun p => p.1 = k) then
    m.map (fun p => if p.1 = k then (k, v) else p)
  else m ++ [(k, v)]

/-- `metricsString.split('\n')` on the character list: split at every
`'\n'`, keeping empty segments (so `""` gives one empty line and a trailing
`'\n'` gives a trailing empty line, exactly as in JS). -/
def splitNl : List Char → List (List Char)
  | [] => [[]]
  | c :: rest =>
    if c = '\n' then [] :: splitNl rest
    else
      match splitNl rest with
      | [] => [[c]]
      | l :: ls => (c :: l) :: ls

/-- The whole loop of `parsePrometheusMetrics` over the already-split
lines. -/
def parseMetricLines (lines : List (List Char)) : List (String × ℚ) :=
  (lines.filterMap parseLine).foldl (fun m p => setKV m p.1 p.2) []

/-- `MetricsPusher.parsePrometheusMetrics` from pusher.ts: split on `'\n'`
and run the loop. -/
def parsePrometheusMetrics (s : String) : List (String × ℚ) :=
  parseMetricLines (splitNl s.data)

/-! ## MetricsPusher.pushMetrics (pusher.ts lines 151-191)

The method body is one `try`-block; the registry read and the remote-write
call are the two fallible steps, both passed in as explicit outcomes.  The
result type `Except String PushLog` records whether an exception escapes to
the caller (`.error`) and which side effects ran. -/

/-- Side effects of one `pushMetrics` call. -/
structure PushLog where
  warnedNoMetrics : Bool := false
  pushCalled : Bool := false
  debugLogged : Bool := false
  errorLogged : Bool := false
deriving DecidableEq, Repr

/-- The `try` block of `pushMetrics`: read the registry, parse, warn and
return on an empty sample set, otherwise forward.  An error value carries
the effects that had already happened when the exception was raised. -/
def pushTry (registryMetrics : Except String String)
    (pushOutcome : Except String Unit) : Except (String × PushLog) PushLog :=
  match registryMetrics with
  | .error e => .error (e, {})
  | .ok ms =>
    if parsePrometheusMetrics ms = [] then .ok { warnedNoMetrics := true }
    else
      match pushOutcome with
      | .error e => .error (e, { pushCalled := true })
      | .ok _ => .ok { pushCalled := true, debugLogged := true }

/-- `MetricsPusher.pushMetrics`: an unset Alloy URL returns immediately; the
`catch` turns any failure of the `try` block into an error log entry and a
normal return. -/
def MetricsPusher.pushMetrics (alloyUrl : String)
    (registryMetrics : Except String String)
    (pushOutcome : Except String Unit) : Except String PushLog :=
  if alloyUrl = "" then .ok {}
  else
    match pushTry registryMetrics pushOutcome with
    | .ok log => .ok log
    | .error (_, log) => .ok { log with errorLogged := true }

/-! ## Redis cache factory (src/unnamed/part_001, `createRedisCache`)

The factory reads `process.env.REDIS_CACHE_ENABLED` and resolves a Redis URL
from `config.redisUrl || process.env.REDIS_URL`; it returns a `NoOpCache`
unless caching is enabled and the resolved URL is truthy. -/

/-- Which concrete cache client the factory constructs. -/
inductive CacheClientKind where
  | noOp : CacheClientKind
  | redis : String → CacheClientKind
deriving DecidableEq, Repr

/-- `createRedisCache` from src/unnamed/part_001, as a function of the two
environment variables and the configured URL.

```
const cacheEnabled = process.env.REDIS_CACHE_ENABLED === 'true';
const redisUrl = config.redisUrl || process.env.REDIS_URL;
if (!cacheEnabled) return new NoOpCache();
if (!redisUrl) return new NoOpCache();
return new RedisCache({ ...config, redisUrl });
```
-/
def createRedisCache (redisCacheEnabledEnv : Option String)
    (configRedisUrl : Option String) (redisUrlEnv : Option String) :
    CacheClientKind :=
  let cacheEnabled : Bool := redisCacheEnabledEnv = some "true"
  let redisUrl : Option String :=
    (truthyStr configRedisUrl).orElse (fun _ => redisUrlEnv)
  if !cacheEnabled then .noOp
  else
    match truthyStr redisUrl with
    | none => .noOp
    | some url => .redis url

/-! ## NoOpCache (src/packages/redis-cache/src/noop-cache.ts)

The class has no fields, so its state is `Unit`; each method is total (none
throws) and `step` records the value it returns. -/

/-- One method call on a cache client. -/
inductive CacheOp where
  | connect : CacheOp
  | disconnect : CacheOp
  | getOp (key : String) : CacheOp
  | setOp (key value : String) (ttl : Option Nat) : CacheOp
  | deleteOp (key : String) : CacheOp
  | existsOp (key : String) : CacheOp
  | isConnectedOp : CacheOp
  | healthCheckOp : CacheOp

/-- The value a cache method call returns. -/
inductive CacheReply where
  | done : CacheReply
  | got (v : Option String) : CacheReply
  | flag (b : Bool) : CacheReply
deriving DecidableEq, Repr

/-- One NoOpCache method call: the class holds no state (`Unit`) and every
method returns without touching anything.  From noop-cache.ts. -/
def NoOpCache.step : Unit → CacheOp → Unit × CacheReply
  | _, .connect => ((), .done)
  | _, .disconnect => ((), .done)
  | _, .getOp _ => ((), .got none)
  | _, .setOp _ _ _ => ((), .done)
  | _, .deleteOp _ => ((), .done)
  | _, .existsOp _ => ((), .flag false)
  | _, .isConnectedOp => ((), .flag false)
  | _, .healthCheckOp => ((), .flag false)

/-- Run a sequence of method calls on a NoOpCache, threading its (trivial)
state, and collect every reply in order. -/
def NoOpCache.run : Unit → List CacheOp → List CacheReply
  | _, [] => []
  | s, op :: rest =>
    let (s1, r) := NoOpCache.step s op
    r :: NoOpCache.run s1 rest

/-- The reply the specification predicts for each operation: always a miss
(`null`), `false`, or a plain return. -/
def NoOpCache.specReply : CacheOp → CacheReply
  | .connect => .done
  | .disconnect => .done
  | .getOp _ => .got none
  | .setOp _ _ _ => .done
  | .deleteOp _ => .done
  | .existsOp _ => .flag false
  | .isConnectedOp => .flag false
  | .healthCheckOp => .flag false

/-! ## PostgresClient.queryOne (src/unnamed/part_012)

`queryOne` awaits `this.query(sql, params)` and returns `rows[0] || null`.
pg result rows are JS objects and JS objects are always truthy, so
`rows[0] || null` is the head of the row list when present, `null` when the
list is empty.  A rejection of `query` propagates. -/

/-- `queryOne`, parameterised by the behaviour of `this.query` (which either
resolves with a row list or rejects with an error). -/
def PostgresClient.queryOne {Row : Type}
    (query : String → List String → Except String (List Row))
    (sql : String) (params : List String) : Except String (Option Row) :=
  match query sql params with
  | .error e => .error e
  | .ok rows => .ok rows.head?

/-! ## MetricsPusher lifecycle (pusher.ts lines 59-143 and 196-198)

The mutable instance fields that the lifecycle methods touch are
`isRunning` and `intervalId`; `start` additionally depends on the
constructor-resolved `alloyUrl` and `pushIntervalMs`.  The fresh timer
handle produced by `setInterval` is an input. -/

/-- The lifecycle-relevant mutable state of a `MetricsPusher`. -/
structure PusherState where
  isRunning : Bool
  intervalId : Option Nat
deriving DecidableEq, Repr

/-- What one `start()` call did. -/
structure StartEvents where
  warnedAlreadyRunning : Bool := false
  warnedNoUrl : Bool := false
  pushedImmediately : Bool := false
  scheduledEveryMs : Option Nat := none
deriving DecidableEq, Repr

/-- Constructor resolution of the push interval:
`(config.pushInterval ?? 15) * 1000` (nullish coalescing, so a supplied 0
stays 0). -/
def MetricsPusher.intervalMs (configPushInterval : Option Nat) : Nat :=
  configPushInterval.getD 15 * 1000

/-- `MetricsPusher.start()`: warn and return when already running, warn and
return (still idle) when no Alloy URL is configured; otherwise mark running,
push once immediately and schedule a push every `pushIntervalMs`
milliseconds under the fresh timer handle. -/
def MetricsPusher.start (alloyUrl : String) (pushIntervalMs : Nat)
    (s : PusherState) (freshTimer : Nat) : PusherState × StartEvents :=
  if s.isRunning then (s, { warnedAlreadyRunning := true })
  else if alloyUrl = "" then (s, { warnedNoUrl := true })
  else ({ isRunning := true, intervalId := some freshTimer },
        { pushedImmediately := true, scheduledEveryMs := some pushIntervalMs })

/-- `MetricsPusher.stop()`: return unchanged when not running, otherwise
clear the scheduled interval and mark idle. -/
def MetricsPusher.stop (s : PusherState) : PusherState :=
  if !s.isRunning then s
  else { isRunning := false, intervalId := none }

/-- `MetricsPusher.isActive()`. -/
def MetricsPusher.isActive (s : PusherState) : Bool :=
  s.isRunning

/-! ## KafkaConsumer message loop (src/packages/kafka-client/src/index.ts)

The `eachMessage` callback wraps the caller handler in a `try`/`catch`; the
handler outcome for each message is an explicit `Except`.  The second
component of `eachMessage` records whether an exception escapes the
callback into the kafkajs message loop: the `catch` clause only logs, so it
is `false` on both branches. -/

/-- The statistics record of a `KafkaConsumer` (types.ts `ConsumerStats`). -/
structure ConsumerStats where
  processedCount : Nat
  errorCount : Nat
  lastProcessedAt : Option Nat
  isRunning : Bool
deriving DecidableEq, Repr

/-- The `eachMessage` callback body for one message, given the handler's
outcome and the current time: success bumps `processedCount`, a thrown
handler error is caught, logged and bumps `errorCount`; neither branch
rethrows (second component). -/
def KafkaConsumer.eachMessage (stats : ConsumerStats)
    (handlerResult : Except String Unit) (now : Nat) : ConsumerStats × Bool :=
  match handlerResult with
  | .ok _ =>
    ({ stats with
        processedCount := stats.processedCount + 1
        lastProcessedAt := some now }, false)
  | .error _ =>
    ({ stats with
        errorCount := stats.errorCount + 1
        lastProcessedAt := some now }, false)

/-- The kafkajs loop feeds the subscription's messages to `eachMessage` one
at a time, in order; each message is a pair of handler outcome and receipt
time. -/
def KafkaConsumer.runLoop (stats : ConsumerStats)
    (msgs : List (Except String Unit × Nat)) : ConsumerStats :=
  msgs.foldl (fun s m => (KafkaConsumer.eachMessage s m.1 m.2).1) stats

/-! ## Constructor required-field guards

Each constructor (or factory) opens with `if (!config.x) throw new
Error(...)` tests.  All of them run before the underlying client object is
even created (and creating a kafkajs client, a pg pool or a winston logger
opens no connection by itself), so a missing required field fails
synchronously with no network attempt.  A field is modelled as
`Option String` (`none` = not supplied); JS `!x` is true for both `none`
and the empty string. -/

/-- The five fields the KafkaConsumer constructor checks. -/
structure KafkaConfigShape where
  serviceName : Option String
  brokers : Option (List String)
  username : Option String
  password : Option String
  groupId : Option String

/-- The guards of the KafkaConsumer constructor (index.ts lines 70-85);
`!config.brokers || config.brokers.length === 0` rejects both a missing and
an empty broker list (an empty JS array is truthy, hence the length
test). -/
def KafkaConsumer.construct (c : KafkaConfigShape) : Except String Unit :=
  if truthyStr c.serviceName = none then
    .error "KafkaConfig.serviceName is required"
  else if c.brokers = none ∨ c.brokers = some [] then
    .error "KafkaConfig.brokers is required"
  else if truthyStr c.username = none then
    .error "KafkaConfig.username is required"
  else if truthyStr c.password = none then
    .error "KafkaConfig.password is required"
  else if truthyStr c.groupId = none then
    .error "KafkaConfig.groupId is required"
  else .ok ()

/-- The guards of the PostgresClient constructor (src/unnamed/part_012 lines
98-104). -/
def PostgresClient.construct (serviceName schemaName : Option String) :
    Except String Unit :=
  if truthyStr serviceName = none then
    .error "PostgresConfig.serviceName is required"
  else if truthyStr schemaName = none then
    .error "PostgresConfig.schemaName is required"
  else .ok ()

/-- The guard of the MetricsPusher constructor (pusher.ts lines 68-71). -/
def MetricsPusher.construct (serviceName : Option String) :
    Except String Unit :=
  if truthyStr serviceName = none then
    .error "MetricsConfig.serviceName is required"
  else .ok ()

/-- The guard of `createLogger` (logger.ts lines 61-63). -/
def createLoggerConstruct (serviceName : Option String) :
    Except String Unit :=
  if truthyStr serviceName = none then
    .error "LoggerConfig.serviceName is required"
  else .ok ()

/-- The guard of `createOpenAPIMiddleware` (src/unnamed/part_009 lines
46-49); this component's only required field is `schemaPath`. -/
def createOpenAPIMiddlewareConstruct (schemaPath : Option String) :
    Except String Unit :=
  if truthyStr schemaPath = none then
    .error "OpenAPIConfig.schemaPath is required"
  else .ok ()

/-! ## OpenAPI error-handling middleware
(src/unnamed/part_009, `createOpenAPIErrorHandler`)

The handler looks at `err.status && err.errors` (JS truthiness: a numeric
status of 0 is falsy, an array — even empty — is truthy) and either sends a
normalized JSON body or hands the error to `next`. -/

/-- One entry of a validation error's `errors` array. -/
structure ErrItem where
  path : String
  message : String
  errorCode : Option String
deriving DecidableEq, Repr

/-- The fields of a thrown error that the handler inspects. -/
structure JsError where
  status : Option Int
  message : Option String
  errors : Option (List ErrItem)
deriving DecidableEq, Repr

/-- The normalized response body (`ValidationError` in the source); each
errors entry is `(path, message, errorCode)`. -/
structure ValidationBody where
  status : Int
  message : String
  errors : List (String × String × String)
deriving DecidableEq, Repr

/-- What the error middleware did with one error. -/
inductive HandlerOutcome where
  | responded (status : Int) (body : ValidationBody) (warned : Bool) :
      HandlerOutcome
  | forwarded (err : JsError) : HandlerOutcome
deriving DecidableEq, Repr

/-- `createOpenAPIErrorHandler`'s returned middleware on one error:
when `err.status && err.errors` is truthy it logs a warning and responds
with status `err.status` and the normalized body (`err.message ||
'Validation failed'`, `e.errorCode || 'VALIDATION_ERROR'`); otherwise it
calls `next(err)` with the error unchanged. -/
def createOpenAPIErrorHandler (err : JsError) : HandlerOutcome :=
  match truthyInt err.status, err.errors with
  | some st, some errs =>
    .responded st
      { status := st
        message := (truthyStr err.message).getD "Validation failed"
        errors := errs.map (fun it =>
          (it.path, it.message, (truthyStr it.errorCode).getD "VALIDATION_ERROR")) }
      true
  | _, _ => .forwarded err

/-! ## Optional-configuration resolution

The Postgres constructor (part_012 lines 109-123) and the MetricsPusher
constructor (pusher.ts lines 73-77) resolve optional fields with JS `||`
chains (`config.x || process.env.X || literal`); `createLogger` (logger.ts
lines 51-59) uses destructuring defaults, which fire only when the field is
`undefined`, with `||` chains inside the default expressions. -/

/-- `a || b` where `b` is an already-resolved plain string. -/
def jsOrStr (a : Option String) (b : String) : String :=
  (truthyStr a).getD b

/-- `parseInt(s, 10)`: skip leading whitespace, take an optional sign and
then the maximal digit run; `none` models `NaN`. -/
def jsParseInt (s : String) : Option Int :=
  let cs := s.data.dropWhile isJsWs
  let sgn : Int := if cs.head? = some '-' then -1 else 1
  let cs1 := if cs.head? = some '-' || cs.head? = some '+' then cs.tail else cs
  let ds := cs1.takeWhile Char.isDigit
  if ds.isEmpty then none else some (sgn * digitsToNat ds)

/-- The environment variables the Postgres constructor reads. -/
structure PgEnv where
  pghost : Option String
  pgport : Option String
  pgdatabase : Option String
  pguser : Option String
  pgpassword : Option String

/-- The optional connection fields of `PostgresConfig`. -/
structure PgOpt where
  host : Option String
  port : Option Int
  database : Option String
  user : Option String
  password : Option String

/-- `config.host || process.env.PGHOST || 'localhost'`. -/
def PostgresClient.resolvedHost (c : PgOpt) (env : PgEnv) : String :=
  jsOrStr c.host (jsOrStr env.pghost "localhost")

/-- `config.port || parseInt(process.env.PGPORT || '5432', 10)`; `none`
is the `NaN` that an unparseable `PGPORT` produces. -/
def PostgresClient.resolvedPort (c : PgOpt) (env : PgEnv) : Option Int :=
  (truthyInt c.port).orElse (fun _ => jsParseInt (jsOrStr env.pgport "5432"))

/-- `config.database || process.env.PGDATABASE || 'railrepay'`. -/
def PostgresClient.resolvedDatabase (c : PgOpt) (env : PgEnv) : String :=
  jsOrStr c.database (jsOrStr env.pgdatabase "railrepay")

/-- `config.user || process.env.PGUSER || 'postgres'`. -/
def PostgresClient.resolvedUser (c : PgOpt) (env : PgEnv) : String :=
  jsOrStr c.user (jsOrStr env.pguser "postgres")

/-- `config.password || process.env.PGPASSWORD || 'postgres'`. -/
def PostgresClient.resolvedPassword (c : PgOpt) (env : PgEnv) : String :=
  jsOrStr c.password (jsOrStr env.pgpassword "postgres")

/-- `config.alloyUrl || process.env.ALLOY_PUSH_URL || ''`. -/
def MetricsPusher.resolvedAlloyUrl (cfg alloyPushUrlEnv : Option String) :
    String :=
  jsOrStr cfg (jsOrStr alloyPushUrlEnv "")

/-- `config.environment || process.env.NODE_ENV || 'development'`. -/
def MetricsPusher.resolvedEnvironment (cfg nodeEnv : Option String) : String :=
  jsOrStr cfg (jsOrStr nodeEnv "development")

/-- `level = process.env.LOG_LEVEL || 'info'` as a destructuring default:
it fires only when `config.level` is `undefined`. -/
def createLoggerLevel (cfg logLevelEnv : Option String) : String :=
  cfg.getD (jsOrStr logLevelEnv "info")

/-- `environment = process.env.ENVIRONMENT || process.env.NODE_ENV ||
'development'`, again a destructuring default. -/
def createLoggerEnvironment (cfg environmentEnv nodeEnv : Option String) :
    String :=
  cfg.getD (jsOrStr environmentEnv (jsOrStr nodeEnv "development"))

/-- The precedence order as the specification words it: the explicitly
supplied config value first; when absent, the named environment variable;
when that too is absent, the literal default. -/
def specPrecedence {α : Type} (cfg env : Option α) (dflt : α) : α :=
  cfg.getD (env.getD dflt)

/-! ## Exposition-format inputs

To quantify over "every exposition-format text input" we describe a text by
the list of its lines, each line either a comment, a blank (whitespace-only)
line, or a sample `name[{labels}] value [timestamp]`, and render that
description to the raw text.  Validity pins down the format: a metric name
is `[a-zA-Z_:][a-zA-Z0-9_:]*`, the label block may contain anything except a
newline, the value is a non-empty token over the numeric alphabet
`[0-9.eE+-]` (which need not actually parse — e.g. `..`), and the optional
timestamp is a non-empty digit run. -/

/-- One sample line, by its textual components: the label field is the text
standing between the braces, the value and timestamp are kept as tokens. -/
structure Sample where
  name : String
  labels : Option String
  value : String
  timestamp : Option String
deriving DecidableEq, Repr

/-- One line of an exposition-format text. -/
inductive ExpoLine where
  | comment (text : String) : ExpoLine
  | blank (ws : String) : ExpoLine
  | sample (s : Sample) : ExpoLine
deriving DecidableEq, Repr

/-- The text of a sample line. -/
def renderSample (s : Sample) : List Char :=
  s.name.data ++
    (match s.labels with
     | some l => '{' :: (l.data ++ ['}'])
     | none => []) ++
    ' ' :: (s.value.data ++
      (match s.timestamp with
       | some ts => ' ' :: ts.data
       | none => []))

/-- The text of one line (without its terminating newline). -/
def renderLine : ExpoLine → List Char
  | .comment t => '#' :: t.data
  | .blank ws => ws.data
  | .sample s => renderSample s

/-- The text of a whole exposition document: lines joined by `'\n'`. -/
def renderLines : List ExpoLine → List Char
  | [] => []
  | [l] => renderLine l
  | l :: ls => renderLine l ++ '\n' :: renderLines ls

/-- A well-formed metric name: `[a-zA-Z_:][a-zA-Z0-9_:]*`. -/
def validName : List Char → Bool
  | [] => false
  | c :: rest => isNameStart c && rest.all isNameChar

/-- A well-formed sample line (see the section comment). -/
def validSample (s : Sample) : Bool :=
  validName s.name.data &&
    (match s.labels with
     | some l => l.data.all (fun c => c != '\n')
     | none => true) &&
    (!s.value.data.isEmpty && s.value.data.all isValChar) &&
    (match s.timestamp with
     | some ts => !ts.data.isEmpty && ts.data.all Char.isDigit
     | none => true)

/-- A well-formed line: comments and blanks stay on their line, blanks are
whitespace only. -/
def validLine : ExpoLine → Bool
  | .comment t => t.data.all (fun c => c != '\n')
  | .blank ws => ws.data.all (fun c => isJsWs c && c != '\n')
  | .sample s => validSample s

/-- The entry the claim predicts per line: nothing for comments and blanks;
for a sample, the metric name paired with the numeric parse of the value
token when that parse succeeds, and nothing otherwise — labels and
timestamp are discarded. -/
def claimEntry : ExpoLine → Option (String × ℚ)
  | .comment _ => none
  | .blank _ => none
  | .sample s => (jsParseFloat s.value.data).map (fun v => (s.name, v))

/-! # Theorems -/

/-- C2: `pushMetrics` never throws to its caller; with a configured URL, an
empty parsed sample set logs a warning and performs no forwarding call, and
a failure of the forwarding call is caught and logged rather than
propagated. -/
theorem pushMetrics_shielded (url : String) (reg : Except String String)
    (push : Except String Unit) :
    (∃ log, MetricsPusher.pushMetrics url reg push = .ok log) ∧
    (∀ ms, url ≠ "" → reg = .ok ms → parsePrometheusMetrics ms = [] →
      MetricsPusher.pushMetrics url reg push = .ok { warnedNoMetrics := true }) ∧
    (∀ ms e, url ≠ "" → reg = .ok ms → parsePrometheusMetrics ms ≠ [] →
      push = .error e →
      MetricsPusher.pushMetrics url reg push =
        .ok { pushCalled := true, errorLogged := true }) := by
  refine ⟨?_, ?_, ?_⟩
  · unfold MetricsPusher.pushMetrics
    split
    · exact ⟨_, rfl⟩
    · rcases h : pushTry reg push with e | log
      · exact ⟨_, rfl⟩
      · exact ⟨_, rfl⟩
  · intro ms hurl hreg hempty
    simp [MetricsPusher.pushMetrics, pushTry, hurl, hreg, hempty]
  · intro ms e hurl hreg hne hpush
    simp [MetricsPusher.pushMetrics, pushTry, hurl, hreg, hne, hpush]

/-- Witness for C2: with a configured URL, a registry dump with no parseable
sample warns and skips the call, and a failing forwarding call on a
one-sample dump is swallowed into an error log. -/
theorem pushMetrics_shielded_witness :
    MetricsPusher.pushMetrics "http://alloy:9091" (.ok "# only a comment")
        (.error "ECONNREFUSED") = .ok { warnedNoMetrics := true } ∧
    MetricsPusher.pushMetrics "http://alloy:9091" (.ok "requests_total 42")
        (.error "ECONNREFUSED") =
      .ok { pushCalled := true, errorLogged := true } :=
  ⟨(pushMetrics_shielded "http://alloy:9091" (.ok "# only a comment")
      (.error "ECONNREFUSED")).2.1 "# only a comment" (by decide) rfl (by decide),
   (pushMetrics_shielded "http://alloy:9091" (.ok "requests_total 42")
      (.error "ECONNREFUSED")).2.2 "requests_total 42" "ECONNREFUSED"
      (by decide) rfl (by decide) rfl⟩

/-- C3: `start()` is a no-op with a warning when already running, a no-op
with a warning (remaining idle) when no remote endpoint is configured, and
otherwise switches to running, pushes once immediately and schedules a push
every configured interval, the interval defaulting to 15 seconds; `stop()`
cancels the schedule, returns to idle and is idempotent; `isActive()`
returns exactly the running flag. -/
theorem pusher_state_machine (url : String) (ivalMs : Nat) (s : PusherState)
    (t : Nat) :
    (s.isRunning = true →
      MetricsPusher.start url ivalMs s t = (s, { warnedAlreadyRunning := true })) ∧
    (s.isRunning = false → url = "" →
      MetricsPusher.start url ivalMs s t = (s, { warnedNoUrl := true })) ∧
    (s.isRunning = false → url ≠ "" →
      MetricsPusher.start url ivalMs s t =
        ({ isRunning := true, intervalId := some t },
         { pushedImmediately := true, scheduledEveryMs := some ivalMs })) ∧
    MetricsPusher.intervalMs none = 15000 ∧
    (s.isRunning = true →
      MetricsPusher.stop s = { isRunning := false, intervalId := none }) ∧
    (s.isRunning = false → MetricsPusher.stop s = s) ∧
    MetricsPusher.stop (MetricsPusher.stop s) = MetricsPusher.stop s ∧
    MetricsPusher.isActive s = s.isRunning := by
  refine ⟨?_, ?_, ?_, rfl, ?_, ?_, ?_, rfl⟩
  · intro h; simp [MetricsPusher.start, h]
  · intro h hu; simp [MetricsPusher.start, h, hu]
  · intro h hu; simp [MetricsPusher.start, h, hu]
  · intro h; simp [MetricsPusher.stop, h]
  · intro h; simp [MetricsPusher.stop, h]
  · cases h : s.isRunning <;> simp [MetricsPusher.stop, h]

/-- Witness for C3: from idle with a configured URL and a default interval,
`start` runs, pushes immediately and schedules every 15000 ms; `stop`
returns to idle. -/
theorem pusher_state_machine_witness :
    MetricsPusher.start "http://alloy:9091" (MetricsPusher.intervalMs none)
        { isRunning := false, intervalId := none } 3 =
      ({ isRunning := true, intervalId := some 3 },
       { pushedImmediately := true, scheduledEveryMs := some 15000 }) ∧
    MetricsPusher.stop { isRunning := true, intervalId := some 3 } =
      { isRunning := false, intervalId := none } :=
  ⟨(pusher_state_machine "http://alloy:9091" (MetricsPusher.intervalMs none)
      { isRunning := false, intervalId := none } 3).2.2.1 rfl (by decide),
   (pusher_state_machine "http://alloy:9091" 15000
      { isRunning := true, intervalId := some 3 } 0).2.2.2.2.1 rfl⟩

/-- C4: when the handler throws on message M (after any prefix of the
subscription's messages), the error counter increments by exactly one, the
processed counter does not move, no exception escapes the `eachMessage`
callback, the running flag is untouched, and the loop goes on to process
the remaining messages starting with M+1. -/
theorem kafka_handler_error_contained (stats : ConsumerStats)
    (pre post : List (Except String Unit × Nat)) (e : String) (now : Nat) :
    (KafkaConsumer.eachMessage (KafkaConsumer.runLoop stats pre)
        (.error e) now).1.errorCount =
      (KafkaConsumer.runLoop stats pre).errorCount + 1 ∧
    (KafkaConsumer.eachMessage (KafkaConsumer.runLoop stats pre)
        (.error e) now).1.processedCount =
      (KafkaConsumer.runLoop stats pre).processedCount ∧
    (KafkaConsumer.eachMessage (KafkaConsumer.runLoop stats pre)
        (.error e) now).2 = false ∧
    (KafkaConsumer.eachMessage (KafkaConsumer.runLoop stats pre)
        (.error e) now).1.isRunning =
      (KafkaConsumer.runLoop stats pre).isRunning ∧
    KafkaConsumer.runLoop stats (pre ++ (Except.error e, now) :: post) =
      KafkaConsumer.runLoop
        (KafkaConsumer.eachMessage (KafkaConsumer.runLoop stats pre)
          (.error e) now).1 post := by
  refine ⟨rfl, rfl, rfl, rfl, ?_⟩
  simp [KafkaConsumer.runLoop, List.foldl_append]

/-- C10: `createRedisCache` returns a `NoOpCache` unless
`REDIS_CACHE_ENABLED` is exactly `'true'` and a Redis URL is resolvable from
`config.redisUrl` or `REDIS_URL` (a truthy value in either place); only when
both conditions hold does it return a `RedisCache`. -/
theorem createRedisCache_noOp_iff (e c u : Option String) :
    createRedisCache e c u = CacheClientKind.noOp ↔
      ¬ (e = some "true" ∧ ((truthyStr c).isSome ∨ (truthyStr u).isSome)) := by
  unfold createRedisCache
  by_cases he : e = some "true"
  · simp only [he, truthyStr, Option.orElse]
    rcases c with _ | sc
    · rcases u with _ | su
      · simp
      · by_cases hsu : su = "" <;> simp [hsu]
    · by_cases hsc : sc = ""
      · rcases u with _ | su
        · simp [hsc]
        · by_cases hsu : su = "" <;> simp [hsc, hsu]
      · simp [hsc]
  · simp [he]

/-- C9: every operation on a `NoOpCache` completes without throwing and its
reply is fixed regardless of prior calls: `get` replies `null`, `exists`,
`isConnected` and `healthCheck` reply `false`, the rest return plainly — the
whole trace is a pointwise function of the operation list. -/
theorem noOpCache_run_spec (ops : List CacheOp) :
    NoOpCache.run () ops = ops.map NoOpCache.specReply := by
  induction ops with
  | nil => rfl
  | cons op rest ih =>
    cases op <;> simp [NoOpCache.run, NoOpCache.step, NoOpCache.specReply, ih]

/-- C7: for every query behaviour, SQL string and parameter list, `queryOne`
on a zero-row result returns `null` (it does not throw), and on a result
with at least one row it returns the first row. -/
theorem queryOne_head {Row : Type}
    (query : String → List String → Except String (List Row))
    (sql : String) (params : List String) :
    (query sql params = .ok [] →
      PostgresClient.queryOne query sql params = .ok none) ∧
    (∀ (r : Row) (rs : List Row), query sql params = .ok (r :: rs) →
      PostgresClient.queryOne query sql params = .ok (some r)) := by
  constructor
  · intro h
    simp [PostgresClient.queryOne, h]
  · intro r rs h
    simp [PostgresClient.queryOne, h]

/-- Witness for C7 at a concrete query behaviour: the empty-result query
yields `.ok none`, the one-row query yields that row. -/
theorem queryOne_head_witness :
    PostgresClient.queryOne (fun _ _ => Except.ok ([] : List Nat)) "SELECT 1" [] =
      Except.ok none ∧
    PostgresClient.queryOne (fun _ _ => Except.ok [7]) "SELECT 1" [] =
      Except.ok (some 7) :=
  ⟨(queryOne_head (fun _ _ => Except.ok ([] : List Nat)) "SELECT 1" []).1 rfl,
   (queryOne_head (fun _ _ => Except.ok [(7 : Nat)]) "SELECT 1" []).2 7 [] rfl⟩

/-- C5: each component's constructor rejects a configuration that lacks a
documented required field, synchronously and before any network attempt:
`serviceName` for the Kafka consumer, Postgres client, metrics pusher and
logger factory, plus `brokers`, `username`, `password` and `groupId` for
the Kafka consumer, `schemaName` for the Postgres client and `schemaPath`
for the OpenAPI middleware (the one component with no `serviceName`
field). -/
theorem constructors_fail_fast (kc : KafkaConfigShape)
    (psn psc msn lsn osp : Option String) :
    ((truthyStr kc.serviceName = none ∨ kc.brokers = none ∨
        kc.brokers = some [] ∨ truthyStr kc.username = none ∨
        truthyStr kc.password = none ∨ truthyStr kc.groupId = none) →
      ∃ msg, KafkaConsumer.construct kc = .error msg) ∧
    ((truthyStr psn = none ∨ truthyStr psc = none) →
      ∃ msg, PostgresClient.construct psn psc = .error msg) ∧
    (truthyStr msn = none →
      MetricsPusher.construct msn = .error "MetricsConfig.serviceName is required") ∧
    (truthyStr lsn = none →
      createLoggerConstruct lsn = .error "LoggerConfig.serviceName is required") ∧
    (truthyStr osp = none →
      createOpenAPIMiddlewareConstruct osp =
        .error "OpenAPIConfig.schemaPath is required") := by
  refine ⟨?_, ?_, ?_, ?_, ?_⟩
  · intro h
    unfold KafkaConsumer.construct
    split_ifs with h1 h2 h3 h4 h5
    · exact ⟨_, rfl⟩
    · exact ⟨_, rfl⟩
    · exact ⟨_, rfl⟩
    · exact ⟨_, rfl⟩
    · exact ⟨_, rfl⟩
    · rcases h with h | h | h | h | h | h <;> simp_all
  · intro h
    unfold PostgresClient.construct
    split_ifs with h1 h2
    · exact ⟨_, rfl⟩
    · exact ⟨_, rfl⟩
    · rcases h with h | h <;> simp_all
  · intro h; simp [MetricsPusher.construct, h]
  · intro h; simp [createLoggerConstruct, h]
  · intro h; simp [createOpenAPIMiddlewareConstruct, h]

/-- Witness for C5: an empty broker list, a missing Postgres schema name, an
empty metrics-pusher service name and a missing OpenAPI schema path are all
rejected at construction. -/
theorem constructors_fail_fast_witness :
    (∃ msg, KafkaConsumer.construct
      { serviceName := some "svc", brokers := some [], username := some "u",
        password := some "p", groupId := some "g" } = .error msg) ∧
    (∃ msg, PostgresClient.construct (some "svc") none = .error msg) ∧
    MetricsPusher.construct (some "") =
      .error "MetricsConfig.serviceName is required" ∧
    createOpenAPIMiddlewareConstruct none =
      .error "OpenAPIConfig.schemaPath is required" :=
  have h := constructors_fail_fast
    { serviceName := some "svc", brokers := some [], username := some "u",
      password := some "p", groupId := some "g" }
    (some "svc") none (some "") none none
  ⟨h.1 (Or.inr (Or.inr (Or.inl rfl))), h.2.1 (Or.inr rfl),
   h.2.2.1 rfl, h.2.2.2.2 rfl⟩

/-- C6 counterexample: the error `{status: 0, errors: []}` has both a
`status` and an `errors` field, yet the handler forwards it to `next`
instead of responding with status 0 — `err.status && err.errors` tests JS
truthiness, not field presence. -/
theorem errorHandler_zero_status_forwarded :
    (({ status := some 0, message := none, errors := some [] } : JsError).status
        ≠ none) ∧
    (({ status := some 0, message := none, errors := some [] } : JsError).errors
        ≠ none) ∧
    createOpenAPIErrorHandler
        { status := some 0, message := none, errors := some [] } =
      .forwarded { status := some 0, message := none, errors := some [] } := by
  refine ⟨by simp, by simp, rfl⟩

/-- C6 as amended: for an error with a truthy (nonzero) numeric status and
an errors field, the handler logs a warning and responds with that same
status and the normalized `{status, message, errors}` body, `message`
defaulting to `'Validation failed'` and each `errorCode` to
`'VALIDATION_ERROR'` when the field is absent or empty; every other error
is forwarded unchanged to the next handler. -/
theorem errorHandler_spec (err : JsError) :
    (∀ st errs, err.status = some st → st ≠ 0 → err.errors = some errs →
      createOpenAPIErrorHandler err =
        .responded st
          { status := st
            message :=
              match err.message with
              | none => "Validation failed"
              | some m => if m = "" then "Validation failed" else m
            errors := errs.map (fun it =>
              (it.path, it.message,
                match it.errorCode with
                | none => "VALIDATION_ERROR"
                | some c => if c = "" then "VALIDATION_ERROR" else c)) }
          true) ∧
    ((err.status = none ∨ err.status = some 0 ∨ err.errors = none) →
      createOpenAPIErrorHandler err = .forwarded err) := by
  constructor
  · intro st errs hst hstz herrs
    have hmap :
        (fun (it : ErrItem) =>
            (it.path, it.message,
              (truthyStr it.errorCode).getD "VALIDATION_ERROR")) =
          (fun (it : ErrItem) =>
            (it.path, it.message,
              match it.errorCode with
              | none => "VALIDATION_ERROR"
              | some c => if c = "" then "VALIDATION_ERROR" else c)) := by
      funext it
      rcases it.errorCode with _ | c
      · rfl
      · by_cases hc : c = "" <;> simp [truthyStr, hc]
    have hmsg :
        (truthyStr err.message).getD "Validation failed" =
          match err.message with
          | none => "Validation failed"
          | some m => if m = "" then "Validation failed" else m := by
      rcases err.message with _ | m
      · rfl
      · by_cases hm : m = "" <;> simp [truthyStr, hm]
    simp [createOpenAPIErrorHandler, hst, herrs, truthyInt, hstz, hmap, hmsg]
  · intro h
    rcases h with h | h | h
    · simp [createOpenAPIErrorHandler, h, truthyInt]
    · simp [createOpenAPIErrorHandler, h, truthyInt]
    · rcases hs : truthyInt err.status with _ | st <;>
        simp [createOpenAPIErrorHandler, hs, h]

/-- Witness for C6 as amended: a 400 validation error with an empty message
and an entry without an error code gets the defaulted normalized response;
an error without a status is forwarded unchanged. -/
theorem errorHandler_spec_witness :
    createOpenAPIErrorHandler
        { status := some 400, message := some "",
          errors := some
            [{ path := "/body/id", message := "must be integer",
               errorCode := none }] } =
      .responded 400
        { status := 400, message := "Validation failed",
          errors := [("/body/id", "must be integer", "VALIDATION_ERROR")] }
        true ∧
    createOpenAPIErrorHandler
        { status := none, message := some "boom", errors := none } =
      .forwarded { status := none, message := some "boom", errors := none } :=
  ⟨(errorHandler_spec
      { status := some 400, message := some "",
        errors := some
          [{ path := "/body/id", message := "must be integer",
             errorCode := none }] }).1 400
      [{ path := "/body/id", message := "must be integer", errorCode := none }]
      rfl (by decide) rfl,
   (errorHandler_spec
      { status := none, message := some "boom", errors := none }).2
     (Or.inl rfl)⟩

/-- `a || b || d` agrees with the spec's config-then-env-then-default
precedence as soon as neither supplied value is the empty string. -/
theorem jsOrStr_specPrecedence (a b : Option String) (d : String)
    (ha : a ≠ some "") (hb : b ≠ some "") :
    jsOrStr a (jsOrStr b d) = specPrecedence a b d := by
  rcases a with _ | sa
  · rcases b with _ | sb
    · rfl
    · have hsb : sb ≠ "" := fun h => hb (by rw [h])
      simp [jsOrStr, truthyStr, specPrecedence, hsb]
  · have hsa : sa ≠ "" := fun h => ha (by rw [h])
    simp [jsOrStr, truthyStr, specPrecedence, hsa]

/-- A destructuring default with an `||` chain inside agrees with the
precedence order whenever the environment value is not the empty string
(the config value may be anything, even empty). -/
theorem getD_jsOrStr_specPrecedence (a b : Option String) (d : String)
    (hb : b ≠ some "") :
    a.getD (jsOrStr b d) = specPrecedence a b d := by
  rcases b with _ | sb
  · rfl
  · have hsb : sb ≠ "" := fun h => hb (by rw [h])
    simp [jsOrStr, truthyStr, specPrecedence, hsb]

/-- C8 counterexample: an explicitly supplied but empty `config.host` is
not used first — the `||` chain falls through to `PGHOST`, so the resolved
value differs from the claimed precedence order at this input. -/
theorem config_precedence_falsy_overridden :
    PostgresClient.resolvedHost
        { host := some "", port := none, database := none, user := none,
          password := none }
        { pghost := some "db.internal", pgport := none, pgdatabase := none,
          pguser := none, pgpassword := none } = "db.internal" ∧
    specPrecedence (some "") (some "db.internal") "localhost" = "" ∧
    PostgresClient.resolvedHost
        { host := some "", port := none, database := none, user := none,
          password := none }
        { pghost := some "db.internal", pgport := none, pgdatabase := none,
          pguser := none, pgpassword := none } ≠
      specPrecedence (some "") (some "db.internal") "localhost" := by
  refine ⟨rfl, rfl, by decide⟩

/-- C8 as amended: the resolved value of every listed optional field follows
config → named environment variable → literal default, provided each
supplied value is truthy (no empty strings, no port 0, and a `PGPORT` that
parses); the logger's destructured fields honour even an empty supplied
config value, so they need no truthiness assumption on the config side. -/
theorem config_resolution_precedence
    (c : PgOpt) (env : PgEnv)
    (aUrl alloyEnv pEnvCfg nodeEnv lvlCfg logLevelEnv lEnvCfg environmentEnv
      nodeEnv2 : Option String)
    (hh : c.host ≠ some "") (hhe : env.pghost ≠ some "")
    (hp : c.port ≠ some 0) (hpe : env.pgport ≠ some "")
    (hpp : ∀ s, env.pgport = some s → jsParseInt s ≠ none)
    (hd : c.database ≠ some "") (hde : env.pgdatabase ≠ some "")
    (hu : c.user ≠ some "") (hue : env.pguser ≠ some "")
    (hw : c.password ≠ some "") (hwe : env.pgpassword ≠ some "")
    (ha : aUrl ≠ some "") (hae : alloyEnv ≠ some "")
    (hv : pEnvCfg ≠ some "") (hve : nodeEnv ≠ some "")
    (hl : logLevelEnv ≠ some "")
    (he1 : environmentEnv ≠ some "") (he2 : nodeEnv2 ≠ some "") :
    PostgresClient.resolvedHost c env =
      specPrecedence c.host env.pghost "localhost" ∧
    PostgresClient.resolvedPort c env =
      some (specPrecedence c.port (env.pgport.bind (fun s => jsParseInt s)) 5432) ∧
    PostgresClient.resolvedDatabase c env =
      specPrecedence c.database env.pgdatabase "railrepay" ∧
    PostgresClient.resolvedUser c env =
      specPrecedence c.user env.pguser "postgres" ∧
    PostgresClient.resolvedPassword c env =
      specPrecedence c.password env.pgpassword "postgres" ∧
    MetricsPusher.resolvedAlloyUrl aUrl alloyEnv =
      specPrecedence aUrl alloyEnv "" ∧
    MetricsPusher.resolvedEnvironment pEnvCfg nodeEnv =
      specPrecedence pEnvCfg nodeEnv "development" ∧
    createLoggerLevel lvlCfg logLevelEnv =
      specPrecedence lvlCfg logLevelEnv "info" ∧
    createLoggerEnvironment lEnvCfg environmentEnv nodeEnv2 =
      specPrecedence lEnvCfg (environmentEnv.orElse (fun _ => nodeEnv2))
        "development" := by
  refine ⟨jsOrStr_specPrecedence _ _ _ hh hhe, ?_,
    jsOrStr_specPrecedence _ _ _ hd hde, jsOrStr_specPrecedence _ _ _ hu hue,
    jsOrStr_specPrecedence _ _ _ hw hwe, jsOrStr_specPrecedence _ _ _ ha hae,
    jsOrStr_specPrecedence _ _ _ hv hve,
    getD_jsOrStr_specPrecedence _ _ _ hl, ?_⟩
  · rcases hc : c.port with _ | p
    · rcases hq : env.pgport with _ | s
      · have h5432 : jsParseInt "5432" = some 5432 := by decide
        simp [PostgresClient.resolvedPort, truthyInt, hc, hq, jsOrStr,
          truthyStr, specPrecedence, Option.orElse, h5432]
      · have hs : s ≠ "" := fun h => hpe (by rw [hq, h])
        obtain ⟨n, hn⟩ : ∃ n, jsParseInt s = some n := by
          cases hj : jsParseInt s with
          | none => exact absurd hj (hpp s hq)
          | some n => exact ⟨n, rfl⟩
        simp [PostgresClient.resolvedPort, truthyInt, hc, hq, jsOrStr,
          truthyStr, specPrecedence, Option.orElse, hs, hn]
    · have hp0 : p ≠ 0 := fun h => hp (by rw [hc, h])
      simp [PostgresClient.resolvedPort, truthyInt, hc, hp0, specPrecedence,
        Option.orElse]
  · rcases lEnvCfg with _ | v
    · rcases environmentEnv with _ | s1
      · rcases nodeEnv2 with _ | s2
        · rfl
        · have hs2 : s2 ≠ "" := fun h => he2 (by rw [h])
          simp [createLoggerEnvironment, jsOrStr, truthyStr, specPrecedence,
            Option.orElse, hs2]
      · have hs1 : s1 ≠ "" := fun h => he1 (by rw [h])
        simp [createLoggerEnvironment, jsOrStr, truthyStr, specPrecedence,
          Option.orElse, hs1]
    · simp [createLoggerEnvironment, specPrecedence, Option.orElse]

/-- Witness for C8 as amended, at a concrete configuration: a supplied
database and port win, an unset host falls back to `PGHOST`, an unset user
falls back to the literal default, and the logger level comes from
`LOG_LEVEL`. -/
theorem config_resolution_precedence_witness :
    PostgresClient.resolvedHost
        { host := none, port := some 6432, database := some "raildb",
          user := none, password := none }
        { pghost := some "pg.internal", pgport := some "5433",
          pgdatabase := none, pguser := none, pgpassword := none } =
      "pg.internal" ∧
    PostgresClient.resolvedPort
        { host := none, port := some 6432, database := some "raildb",
          user := none, password := none }
        { pghost := some "pg.internal", pgport := some "5433",
          pgdatabase := none, pguser := none, pgpassword := none } =
      some 6432 ∧
    PostgresClient.resolvedUser
        { host := none, port := some 6432, database := some "raildb",
          user := none, password := none }
        { pghost := some "pg.internal", pgport := some "5433",
          pgdatabase := none, pguser := none, pgpassword := none } =
      "postgres" ∧
    createLoggerLevel none (some "debug") = "debug" := by
  have h := config_resolution_precedence
    { host := none, port := some 6432, database := some "raildb",
      user := none, password := none }
    { pghost := some "pg.internal", pgport := some "5433",
      pgdatabase := none, pguser := none, pgpassword := none }
    none none none none none (some "debug") none none none
    (by decide) (by decide) (by decide) (by decide)
    (by intro s hs; cases hs; decide)
    (by decide) (by decide) (by decide) (by decide) (by decide) (by decide)
    (by decide) (by decide) (by decide) (by decide) (by decide) (by decide)
    (by decide)
  exact ⟨h.1.trans (by decide), h.2.1.trans (by decide),
    h.2.2.2.1.trans (by decide), h.2.2.2.2.2.2.2.1.trans (by decide)⟩

theorem jsWs_excluded {c : Char} (h : isJsWs c = true) :
    isValChar c = false ∧ isNameStart c = false := by
  have hc : c ∈ [' ', '\t', '\n', '\r', '\x0b', '\x0c', '\u00A0', '\u1680',
      '\u2000', '\u2001', '\u2002', '\u2003', '\u2004', '\u2005', '\u2006',
      '\u2007', '\u2008', '\u2009', '\u200A', '\u2028', '\u2029', '\u202F',
      '\u205F', '\u3000', '\uFEFF'] := by
    simpa [isJsWs] using h
  fin_cases hc <;> exact ⟨rfl, rfl⟩

theorem all_takeWhile (p : Char → Bool) (l : List Char) :
    (l.takeWhile p).all p = true := by
  induction l with
  | nil => rfl
  | cons c t ih =>
    by_cases h : p c <;> simp [List.takeWhile_cons, h, ih]

theorem takeWhile_append_all {p : Char → Bool} {l : List Char}
    (h : l.all p = true) (l2 : List Char) :
    (l ++ l2).takeWhile p = l ++ l2.takeWhile p := by
  induction l with
  | nil => simp
  | cons c t ih =>
    simp only [List.all_cons, Bool.and_eq_true] at h
    simp [List.takeWhile_cons, h.1, ih h.2]

theorem dropWhile_append_all {p : Char → Bool} {l : List Char}
    (h : l.all p = true) (l2 : List Char) :
    (l ++ l2).dropWhile p = l2.dropWhile p := by
  induction l with
  | nil => simp
  | cons c t ih =>
    simp only [List.all_cons, Bool.and_eq_true] at h
    simp [List.dropWhile_cons, h.1, ih h.2]

theorem valChar_not_ws {c : Char} (h : isValChar c = true) : isJsWs c = false := by
  cases hw : isJsWs c
  · rfl
  · exact absurd h (by simp [(jsWs_excluded hw).1])

theorem nameStart_not_ws {c : Char} (h : isNameStart c = true) :
    isJsWs c = false := by
  cases hw : isJsWs c
  · rfl
  · exact absurd h (by simp [(jsWs_excluded hw).2])

theorem digit_valChar {c : Char} (h : c.isDigit = true) : isValChar c = true := by
  simp [isValChar, h]

theorem nameChar_not_ws {c : Char} (h : isNameChar c = true) :
    isJsWs c = false := by
  simp only [isNameChar, Bool.or_eq_true] at h
  rcases h with h | h
  · exact nameStart_not_ws h
  · exact valChar_not_ws (digit_valChar h)

theorem all_mono {p q : Char → Bool} (hpq : ∀ c, p c = true → q c = true)
    {l : List Char} (h : l.all p = true) : l.all q = true := by
  simp only [List.all_eq_true] at h ⊢
  exact fun c hc => hpq c (h c hc)

theorem valueAttempt_all {cs t : List Char} (h : valueAttempt cs = some t) :
    cs.all (fun ch => isJsWs ch || isValChar ch) = true := by
  unfold valueAttempt at h
  simp only [] at h
  split_ifs at h with h1 h2 h3 h4 h5 h6
  · -- timestamp-free success: cs = ws-run ++ value-run
    conv_lhs => rw [← List.takeWhile_append_dropWhile (p := isJsWs) (l := cs)]
    rw [List.all_append, Bool.and_eq_true]
    refine ⟨all_mono (fun c hc => by simp [hc]) (all_takeWhile _ _), ?_⟩
    have hd : cs.dropWhile isJsWs =
        (cs.dropWhile isJsWs).takeWhile isValChar := by
      conv_lhs => rw [← List.takeWhile_append_dropWhile (p := isValChar)
        (l := cs.dropWhile isJsWs)]
      rw [List.isEmpty_iff.mp h3]
      simp
    rw [hd]
    exact all_mono (fun c hc => by simp [hc]) (all_takeWhile _ _)
  · -- success with timestamp: ws ++ value ++ ws ++ digits
    conv_lhs => rw [← List.takeWhile_append_dropWhile (p := isJsWs) (l := cs)]
    rw [List.all_append, Bool.and_eq_true]
    refine ⟨all_mono (fun c hc => by simp [hc]) (all_takeWhile _ _), ?_⟩
    conv_lhs => rw [← List.takeWhile_append_dropWhile (p := isValChar)
      (l := cs.dropWhile isJsWs)]
    rw [List.all_append, Bool.and_eq_true]
    refine ⟨all_mono (fun c hc => by simp [hc]) (all_takeWhile _ _), ?_⟩
    conv_lhs => rw [← List.takeWhile_append_dropWhile (p := isJsWs)
      (l := (cs.dropWhile isJsWs).dropWhile isValChar)]
    rw [List.all_append, Bool.and_eq_true]
    refine ⟨all_mono (fun c hc => by simp [hc]) (all_takeWhile _ _), ?_⟩
    exact all_mono (fun c hc => by simp [digit_valChar hc]) h6

theorem valueMatch_append_bad {xs ys : List Char} {c : Char}
    (hcw : isJsWs c = false) (hcv : isValChar c = false) :
    valueMatch (xs ++ c :: ys) = valueMatch ys := by
  induction xs with
  | nil => simp [valueMatch, hcw]
  | cons d t ih =>
    by_cases hd : isJsWs d
    · have hfail : valueAttempt (d :: (t ++ c :: ys)) = none := by
        cases hva : valueAttempt (d :: (t ++ c :: ys)) with
        | none => rfl
        | some tk =>
          have hall := valueAttempt_all hva
          simp only [List.all_eq_true] at hall
          have hc := hall c (by simp)
          simp [hcw, hcv] at hc
      simpa [valueMatch, hd, hfail] using ih
    · simpa [valueMatch, hd] using ih

theorem valueMatch_append_notWs {xs ys : List Char}
    (h : ∀ c ∈ xs, isJsWs c = false) :
    valueMatch (xs ++ ys) = valueMatch ys := by
  induction xs with
  | nil => rfl
  | cons d t ih =>
    have hd := h d (List.mem_cons_self _ _)
    simpa [valueMatch, hd] using ih (fun c hc => h c (List.mem_cons_of_mem _ hc))

theorem takeWhile_all_self {p : Char → Bool} {l : List Char}
    (h : l.all p = true) : l.takeWhile p = l := by
  simpa using takeWhile_append_all h []

theorem dropWhile_all_nil {p : Char → Bool} {l : List Char}
    (h : l.all p = true) : l.dropWhile p = [] := by
  simpa using dropWhile_append_all h []

theorem valueAttempt_token {tok : List Char} (h1 : tok ≠ [])
    (h2 : tok.all isValChar = true) :
    valueAttempt (' ' :: tok) = some tok := by
  obtain ⟨v0, vrest, rfl⟩ : ∃ v0 vrest, tok = v0 :: vrest := by
    cases tok with
    | nil => exact absurd rfl h1
    | cons a b => exact ⟨a, b, rfl⟩
  have hv0 : isValChar v0 = true := by
    simp only [List.all_cons, Bool.and_eq_true] at h2
    exact h2.1
  have hv0w : isJsWs v0 = false := valChar_not_ws hv0
  have hsp : isJsWs ' ' = true := by decide
  have e1 : (' ' :: v0 :: vrest).takeWhile isJsWs = [' '] := by
    rw [List.takeWhile_cons, if_pos hsp, List.takeWhile_cons, if_neg (by simp [hv0w])]
  have e2 : (' ' :: v0 :: vrest).dropWhile isJsWs = v0 :: vrest := by
    rw [List.dropWhile_cons, if_pos hsp, List.dropWhile_cons, if_neg (by simp [hv0w])]
  unfold valueAttempt
  simp only [e1, e2, takeWhile_all_self h2, dropWhile_all_nil h2,
    List.isEmpty_cons, List.isEmpty_nil, Bool.false_eq_true, if_false, if_true]

theorem valueAttempt_token_ts {tok ts : List Char} (h1 : tok ≠ [])
    (h2 : tok.all isValChar = true) (h3 : ts ≠ [])
    (h4 : ts.all Char.isDigit = true) :
    valueAttempt (' ' :: (tok ++ ' ' :: ts)) = some tok := by
  obtain ⟨v0, vrest, rfl⟩ : ∃ v0 vrest, tok = v0 :: vrest := by
    cases tok with
    | nil => exact absurd rfl h1
    | cons a b => exact ⟨a, b, rfl⟩
  obtain ⟨t0, trest, rfl⟩ : ∃ t0 trest, ts = t0 :: trest := by
    cases ts with
    | nil => exact absurd rfl h3
    | cons a b => exact ⟨a, b, rfl⟩
  have hv0 : isValChar v0 = true := by
    simp only [List.all_cons, Bool.and_eq_true] at h2
    exact h2.1
  have ht0 : t0.isDigit = true := by
    simp only [List.all_cons, Bool.and_eq_true] at h4
    exact h4.1
  have hv0w : isJsWs v0 = false := valChar_not_ws hv0
  have ht0w : isJsWs t0 = false := valChar_not_ws (digit_valChar ht0)
  have hsp : isJsWs ' ' = true := by decide
  have hspv : isValChar ' ' = false := by decide
  have e1 : (' ' :: ((v0 :: vrest) ++ ' ' :: t0 :: trest)).takeWhile isJsWs =
      [' '] := by
    rw [List.takeWhile_cons, if_pos hsp, List.cons_append, List.takeWhile_cons,
      if_neg (by simp [hv0w])]
  have e2 : (' ' :: ((v0 :: vrest) ++ ' ' :: t0 :: trest)).dropWhile isJsWs =
      (v0 :: vrest) ++ ' ' :: t0 :: trest := by
    rw [List.dropWhile_cons, if_pos hsp, List.cons_append, List.dropWhile_cons,
      if_neg (by simp [hv0w])]
  have e3 : ((v0 :: vrest) ++ ' ' :: t0 :: trest).takeWhile isValChar =
      v0 :: vrest := by
    rw [takeWhile_append_all h2, List.takeWhile_cons, if_neg (by simp [hspv])]
    simp
  have e4 : ((v0 :: vrest) ++ ' ' :: t0 :: trest).dropWhile isValChar =
      ' ' :: t0 :: trest := by
    rw [dropWhile_append_all h2, List.dropWhile_cons, if_neg (by simp [hspv])]
  have e5 : (' ' :: t0 :: trest).takeWhile isJsWs = [' '] := by
    rw [List.takeWhile_cons, if_pos hsp, List.takeWhile_cons, if_neg (by simp [ht0w])]
  have e6 : (' ' :: t0 :: trest).dropWhile isJsWs = t0 :: trest := by
    rw [List.dropWhile_cons, if_pos hsp, List.dropWhile_cons, if_neg (by simp [ht0w])]
  unfold valueAttempt
  simp only [e1, e2, e3, e4, e5, e6, h4, List.isEmpty_cons, List.isEmpty_nil,
    Bool.false_eq_true, if_false, if_true]

theorem valueMatch_space_value {value : List Char} (tsR : List Char)
    (hv1 : value ≠ []) (hv2 : value.all isValChar = true)
    (hts : tsR = [] ∨
      ∃ ts, tsR = ' ' :: ts ∧ ts ≠ [] ∧ ts.all Char.isDigit = true) :
    valueMatch (' ' :: (value ++ tsR)) = some value := by
  have hsp : isJsWs ' ' = true := by decide
  rcases hts with rfl | ⟨ts, rfl, hts1, hts2⟩
  · rw [List.append_nil]
    simp [valueMatch, hsp, valueAttempt_token hv1 hv2]
  · simp [valueMatch, hsp, valueAttempt_token_ts hv1 hv2 hts1 hts2]

theorem nameMatch_sample {name : List Char} (d : Char) (t2 : List Char)
    (hn : validName name = true) (hd : isNameChar d = false) :
    nameMatch (name ++ d :: t2) = some name := by
  cases name with
  | nil => simp [validName] at hn
  | cons c0 nrest =>
    simp only [validName, Bool.and_eq_true] at hn
    simp only [List.cons_append, nameMatch, hn.1, if_true]
    rw [takeWhile_append_all hn.2]
    simp [List.takeWhile_cons, hd]

theorem parseLine_sample_core (name mid value tsR : List Char)
    (hname : validName name = true)
    (hmid : mid = [] ∨ ∃ lab, mid = '{' :: (lab ++ ['\x7d']))
    (hv1 : value ≠ []) (hv2 : value.all isValChar = true)
    (hts : tsR = [] ∨
      ∃ ts, tsR = ' ' :: ts ∧ ts ≠ [] ∧ ts.all Char.isDigit = true) :
    parseLine (name ++ (mid ++ ' ' :: (value ++ tsR))) =
      (jsParseFloat value).map (fun v => (String.mk name, v)) := by
  obtain ⟨c0, nrest, rfl⟩ : ∃ c0 nrest, name = c0 :: nrest := by
    cases name with
    | nil => simp [validName] at hname
    | cons a b => exact ⟨a, b, rfl⟩
  have hc0 : isNameStart c0 = true := by
    simp only [validName, Bool.and_eq_true] at hname
    exact hname.1
  have hnrest : nrest.all isNameChar = true := by
    simp only [validName, Bool.and_eq_true] at hname
    exact hname.2
  have hc0w : isJsWs c0 = false := nameStart_not_ws hc0
  have hc0hash : ¬ (c0 = '#') := by
    intro e
    rw [e] at hc0
    exact absurd hc0 (by decide)
  have hnws : ∀ c ∈ c0 :: nrest, isJsWs c = false := by
    intro c hc
    rcases List.mem_cons.mp hc with rfl | hc
    · exact hc0w
    · exact nameChar_not_ws (by
        have := List.all_eq_true.mp hnrest c hc
        exact this)
  have hnm : nameMatch ((c0 :: nrest) ++ (mid ++ ' ' :: (value ++ tsR))) =
      some (c0 :: nrest) := by
    rcases hmid with rfl | ⟨lab, rfl⟩
    · simpa using nameMatch_sample ' ' (value ++ tsR) hname (by decide)
    · have : ('\x7b' :: (lab ++ ['\x7d'])) ++ ' ' :: (value ++ tsR) =
          '\x7b' :: (lab ++ ['\x7d'] ++ ' ' :: (value ++ tsR)) := by simp
      rw [this]
      exact nameMatch_sample '\x7b' _ hname (by decide)
  have hvm : valueMatch ((c0 :: nrest) ++ (mid ++ ' ' :: (value ++ tsR))) =
      some value := by
    rcases hmid with rfl | ⟨lab, rfl⟩
    · rw [List.nil_append, valueMatch_append_notWs hnws]
      exact valueMatch_space_value tsR hv1 hv2 hts
    · have : (c0 :: nrest) ++ (('\x7b' :: (lab ++ ['\x7d'])) ++ ' ' :: (value ++ tsR)) =
          ((c0 :: nrest) ++ '\x7b' :: lab) ++ '\x7d' :: (' ' :: (value ++ tsR)) := by
        simp
      rw [this, valueMatch_append_bad (by decide) (by decide)]
      exact valueMatch_space_value tsR hv1 hv2 hts
  have hhead : ((c0 :: nrest) ++ (mid ++ ' ' :: (value ++ tsR))).head? = some c0 := by
    simp
  have hallws : ((c0 :: nrest) ++ (mid ++ ' ' :: (value ++ tsR))).all isJsWs = false := by
    simp [hc0w]
  rw [parseLine]
  rw [if_neg (by rw [hhead]; simp [hc0hash])]
  rw [if_neg (by rw [hallws]; simp)]
  rw [hnm, hvm]
  rcases hpf : jsParseFloat value with _ | v <;> simp [hpf]

theorem parseLine_renderLine {l : ExpoLine} (h : validLine l = true) :
    parseLine (renderLine l) = claimEntry l := by
  cases l with
  | comment t => simp [renderLine, parseLine, claimEntry]
  | blank ws =>
    have hall : ws.data.all isJsWs = true := by
      simp only [validLine] at h
      exact all_mono (fun c hc => by
        simp only [Bool.and_eq_true] at hc
        exact hc.1) h
    simp [renderLine, parseLine, claimEntry, hall]
  | sample s =>
    simp only [validLine, validSample, Bool.and_eq_true] at h
    obtain ⟨⟨⟨hname, hlab⟩, hval⟩, hts⟩ := h
    have hv1 : s.value.data ≠ [] := by
      simpa [List.isEmpty_iff] using hval.1
    have hv2 : s.value.data.all isValChar = true := hval.2
    have htsR : (match s.timestamp with
        | some ts => ' ' :: ts.data
        | none => ([] : List Char)) = [] ∨
        ∃ ts, (match s.timestamp with
          | some ts => ' ' :: ts.data
          | none => ([] : List Char)) = ' ' :: ts ∧ ts ≠ [] ∧
          ts.all Char.isDigit = true := by
      rcases hcase : s.timestamp with _ | ts
      · exact Or.inl rfl
      · rw [hcase] at hts
        simp only [Bool.and_eq_true] at hts
        refine Or.inr ⟨ts.data, rfl, ?_, hts.2⟩
        simpa [List.isEmpty_iff] using hts.1
    have hmid : (match s.labels with
        | some l => '\x7b' :: (l.data ++ ['\x7d'])
        | none => ([] : List Char)) = [] ∨
        ∃ lab, (match s.labels with
          | some l => '\x7b' :: (l.data ++ ['\x7d'])
          | none => ([] : List Char)) = '\x7b' :: (lab ++ ['\x7d']) := by
      rcases s.labels with _ | lab
      · exact Or.inl rfl
      · exact Or.inr ⟨lab.data, rfl⟩
    have := parseLine_sample_core s.name.data _ s.value.data _ hname hmid hv1 hv2 htsR
    simpa [renderLine, renderSample, claimEntry] using this

theorem not_mem_of_all_false {p : Char → Bool} {c : Char} {l : List Char}
    (h : l.all p = true) (hc : p c = false) : c ∉ l := by
  intro hm
  have := List.all_eq_true.mp h _ hm
  rw [hc] at this
  exact absurd this (by simp)

theorem validName_no_nl {n : List Char} (h : validName n = true) : '\n' ∉ n := by
  cases n with
  | nil => simp
  | cons c0 r =>
    simp only [validName, Bool.and_eq_true] at h
    intro hm
    rcases List.mem_cons.mp hm with he | hm
    · rw [← he] at h
      exact absurd h.1 (by decide)
    · exact absurd (List.all_eq_true.mp h.2 _ hm) (by decide)

theorem renderLine_no_nl {l : ExpoLine} (h : validLine l = true) :
    '\n' ∉ renderLine l := by
  cases l with
  | comment t =>
    intro hm
    simp only [renderLine, List.mem_cons] at hm
    rcases hm with hm | hm
    · exact absurd hm (by decide)
    · exact absurd (List.all_eq_true.mp h _ hm) (by decide)
  | blank ws =>
    intro hm
    simp only [renderLine] at hm
    exact absurd (List.all_eq_true.mp h _ hm) (by decide)
  | sample s =>
    simp only [validLine, validSample, Bool.and_eq_true] at h
    obtain ⟨⟨⟨hname, hlab⟩, hval⟩, hts⟩ := h
    intro hm
    simp only [renderLine, renderSample, List.mem_append, List.mem_cons] at hm
    rcases hm with (hm | hm) | (hm | hm | hm)
    · exact absurd hm (validName_no_nl hname)
    · rcases hlcase : s.labels with _ | lab
      · rw [hlcase] at hm
        simp at hm
      · rw [hlcase] at hm hlab
        simp only [List.mem_cons, List.mem_append, List.mem_singleton] at hm
        rcases hm with hm | hm | hm
        · exact absurd hm (by decide)
        · exact absurd hm (not_mem_of_all_false hlab (by decide))
        · exact absurd hm (by decide)
    · exact absurd hm (by decide)
    · exact absurd hm (not_mem_of_all_false hval.2 (by decide))
    · rcases htcase : s.timestamp with _ | ts
      · rw [htcase] at hm
        simp at hm
      · rw [htcase] at hm hts
        simp only [Bool.and_eq_true] at hts
        rcases List.mem_cons.mp hm with hm | hm
        · exact absurd hm (by decide)
        · exact absurd hm (not_mem_of_all_false hts.2 (by decide))

theorem splitNl_no_nl {xs : List Char} (h : '\n' ∉ xs) : splitNl xs = [xs] := by
  induction xs with
  | nil => rfl
  | cons c t ih =>
    by_cases hc : c = '\n'
    · subst hc
      exact absurd (List.mem_cons_self _ _) h
    · have ht := ih (fun hm => h (List.mem_cons_of_mem _ hm))
      simp [splitNl, hc, ht]

theorem splitNl_append {xs : List Char} (ys : List Char) (h : '\n' ∉ xs) :
    splitNl (xs ++ '\n' :: ys) = xs :: splitNl ys := by
  induction xs with
  | nil => simp [splitNl]
  | cons c t ih =>
    by_cases hc : c = '\n'
    · subst hc
      exact absurd (List.mem_cons_self _ _) h
    · have ht := ih (fun hm => h (List.mem_cons_of_mem _ hm))
      simp [splitNl, hc, ht]

theorem splitNl_renderLines {L : List ExpoLine}
    (hL : ∀ l ∈ L, validLine l = true) (hne : L ≠ []) :
    splitNl (renderLines L) = L.map renderLine := by
  induction L with
  | nil => exact absurd rfl hne
  | cons l ls ih =>
    cases ls with
    | nil =>
      simp only [renderLines, List.map, List.map_nil]
      rw [splitNl_no_nl (renderLine_no_nl (hL l (List.mem_cons_self _ _)))]
    | cons l2 ls2 =>
      simp only [renderLines, List.map]
      rw [splitNl_append _ (renderLine_no_nl (hL l (List.mem_cons_self _ _)))]
      rw [ih (fun x hx => hL x (List.mem_cons_of_mem _ hx)) (by simp)]
      rfl

theorem filterMap_parseLine_render {L : List ExpoLine}
    (hL : ∀ l ∈ L, validLine l = true) :
    (L.map renderLine).filterMap parseLine = L.filterMap claimEntry := by
  induction L with
  | nil => rfl
  | cons l ls ih =>
    simp only [List.map, List.filterMap_cons]
    rw [parseLine_renderLine (hL l (List.mem_cons_self _ _))]
    cases claimEntry l <;>
      simp [ih (fun x hx => hL x (List.mem_cons_of_mem _ hx))]

theorem lookup_map_ne {m : List (String × ℚ)} {k : String} {v : ℚ}
    {n : String} (hnk : n ≠ k) :
    (m.map (fun p => if p.1 = k then (k, v) else p)).lookup n = m.lookup n := by
  induction m with
  | nil => rfl
  | cons p m ih =>
    rw [List.map_cons]
    by_cases hpk : p.1 = k
    · rw [if_pos hpk]
      have h1 : (n == k) = false := beq_eq_false_iff_ne.mpr hnk
      have h2 : (n == p.1) = false :=
        beq_eq_false_iff_ne.mpr (fun e => hnk (e.trans hpk))
      simp [List.lookup, h1, h2, ih]
    · rw [if_neg hpk]
      by_cases hnp : n = p.1
      · have h1 : (n == p.1) = true := beq_iff_eq.mpr hnp
        simp [List.lookup, h1]
      · have h1 : (n == p.1) = false := beq_eq_false_iff_ne.mpr hnp
        simp [List.lookup, h1, ih]

theorem lookup_map_update {m : List (String × ℚ)} {k : String} {v : ℚ}
    (n : String) (hany : m.any (fun p => p.1 = k) = true) :
    (m.map (fun p => if p.1 = k then (k, v) else p)).lookup n =
      if n = k then some v else m.lookup n := by
  induction m with
  | nil => simp at hany
  | cons p m ih =>
    simp only [List.any_cons, Bool.or_eq_true, decide_eq_true_eq] at hany
    rw [List.map_cons]
    by_cases hpk : p.1 = k
    · rw [if_pos hpk]
      by_cases hnk : n = k
      · have h1 : (n == k) = true := beq_iff_eq.mpr hnk
        simp [List.lookup, h1, if_pos hnk]
      · have h1 : (n == k) = false := beq_eq_false_iff_ne.mpr hnk
        have h2 : (n == p.1) = false :=
          beq_eq_false_iff_ne.mpr (fun e => hnk (e.trans hpk))
        simp [List.lookup, h1, h2, if_neg hnk, lookup_map_ne hnk]
    · rw [if_neg hpk]
      have hany2 : m.any (fun q => q.1 = k) = true := by
        rcases hany with h | h
        · exact absurd h hpk
        · simpa using h
      by_cases hnp : n = p.1
      · have hnk : ¬ n = k := fun e => hpk (hnp.symm.trans e)
        have h1 : (n == p.1) = true := beq_iff_eq.mpr hnp
        simp [List.lookup, h1, if_neg hnk]
      · have h1 : (n == p.1) = false := beq_eq_false_iff_ne.mpr hnp
        simpa [List.lookup, h1] using ih hany2

theorem lookup_append_missing {m : List (String × ℚ)} {k : String} {v : ℚ}
    (n : String) (hany : m.any (fun p => p.1 = k) = false) :
    (m ++ [(k, v)]).lookup n = if n = k then some v else m.lookup n := by
  induction m with
  | nil =>
    by_cases hnk : n = k
    · have h1 : (n == k) = true := beq_iff_eq.mpr hnk
      simp [List.lookup, h1, if_pos hnk]
    · have h1 : (n == k) = false := beq_eq_false_iff_ne.mpr hnk
      simp [List.lookup, h1, if_neg hnk]
  | cons p m ih =>
    simp only [List.any_cons, Bool.or_eq_false_iff,
      decide_eq_false_iff_not] at hany
    rw [List.cons_append]
    by_cases hnp : n = p.1
    · have hnk : ¬ n = k := fun e => hany.1 (hnp.symm.trans e)
      have h1 : (n == p.1) = true := beq_iff_eq.mpr hnp
      simp [List.lookup, h1, if_neg hnk]
    · have h1 : (n == p.1) = false := beq_eq_false_iff_ne.mpr hnp
      simpa [List.lookup, h1] using ih hany.2

theorem lookup_setKV (m : List (String × ℚ)) (k : String) (v : ℚ)
    (n : String) :
    (setKV m k v).lookup n = if n = k then some v else m.lookup n := by
  unfold setKV
  by_cases hany : m.any (fun p => p.1 = k) = true
  · rw [if_pos hany]
    exact lookup_map_update n hany
  · rw [if_neg hany]
    have hf : m.any (fun p => p.1 = k) = false := by
      cases h2 : m.any (fun p => p.1 = k) with
      | false => rfl
      | true => exact absurd h2 hany
    exact lookup_append_missing n hf

theorem lookup_foldl_setKV (pairs : List (String × ℚ)) (n : String) :
    ∀ acc, ((pairs.foldl (fun m p => setKV m p.1 p.2) acc).lookup n) =
      pairs.foldl (fun r p => if p.1 = n then some p.2 else r) (acc.lookup n) := by
  induction pairs with
  | nil => intro acc; rfl
  | cons p ps ih =>
    intro acc
    simp only [List.foldl_cons]
    rw [ih]
    congr 1
    rw [lookup_setKV]
    by_cases h : p.1 = n
    · simp [h]
    · have h2 : ¬ n = p.1 := fun e => h e.symm
      simp [h, h2]

theorem foldl_lastUpdate (entries : List (String × ℚ)) (n : String) :
    ∀ r0 : Option ℚ,
      entries.foldl (fun r p => if p.1 = n then some p.2 else r) r0 =
        match (entries.filter (fun p => p.1 = n)).getLast? with
        | some q => some q.2
        | none => r0 := by
  induction entries with
  | nil => intro r0; rfl
  | cons p es ih =>
    intro r0
    simp only [List.foldl_cons]
    rw [ih]
    by_cases hp : p.1 = n
    · rw [if_pos hp, List.filter_cons_of_pos (by simpa using hp)]
      cases hfe : es.filter (fun q => q.1 = n) with
      | nil => simp
      | cons q qs =>
        obtain ⟨mq, hm⟩ : ∃ mq, (q :: qs).getLast? = some mq := by
          clear hfe ih
          induction qs generalizing q with
          | nil => exact ⟨q, rfl⟩
          | cons a b ihq =>
            obtain ⟨mq, hmq⟩ := ihq a
            exact ⟨mq, by rw [List.getLast?_cons_cons]; exact hmq⟩
        simp [List.getLast?_cons_cons, hm]
    · rw [if_neg hp, List.filter_cons_of_neg (by simpa using hp)]

/-- C1: on every exposition-format text (the rendering of any list of valid
comment, blank and sample lines), the parsed metrics object contains an
entry for a metric name exactly when some sample line with that name has a
value token that parses as a number — comments and blank lines contribute
nothing, per-sample labels and timestamps are discarded, lines whose value
fails numeric parsing are skipped — and the entry's value is that of the
last such line (last-write-wins). -/
theorem parsePrometheusMetrics_exposition (L : List ExpoLine)
    (hL : ∀ l ∈ L, validLine l = true) (input : String)
    (hinput : input.data = renderLines L) (n : String) :
    (parsePrometheusMetrics input).lookup n =
      ((L.filterMap claimEntry).filter (fun p => p.1 = n)).getLast?.map
        Prod.snd := by
  cases L with
  | nil =>
    unfold parsePrometheusMetrics
    rw [hinput]
    simp [renderLines, splitNl, parseMetricLines, parseLine, List.lookup]
  | cons l0 ls =>
    unfold parsePrometheusMetrics
    rw [hinput, splitNl_renderLines hL (by simp)]
    unfold parseMetricLines
    rw [filterMap_parseLine_render hL]
    rw [lookup_foldl_setKV]
    rw [foldl_lastUpdate]
    rcases hgl : (((l0 :: ls).filterMap claimEntry).filter
        (fun p => p.1 = n)).getLast? with _ | q <;> simp [hgl, List.lookup]

/-- `parseFloat` on a plain digit run is its decimal value. -/
theorem jsParseFloat_digits {ds : List Char} (h : ds ≠ [])
    (hall : ds.all Char.isDigit = true) :
    jsParseFloat ds = some (digitsToNat ds : ℚ) := by
  obtain ⟨d, rest, rfl⟩ : ∃ d rest, ds = d :: rest := by
    cases ds with
    | nil => exact absurd rfl h
    | cons a b => exact ⟨a, b, rfl⟩
  have hd : d.isDigit = true := by
    simp only [List.all_cons, Bool.and_eq_true] at hall
    exact hall.1
  have hdm : ¬ (d = '-') := fun e => by
    rw [e] at hd
    exact absurd hd (by decide)
  have hdp : ¬ (d = '+') := fun e => by
    rw [e] at hd
    exact absurd hd (by decide)
  have e1 : (d :: rest).takeWhile Char.isDigit = d :: rest :=
    takeWhile_all_self hall
  have e2 : (d :: rest).dropWhile Char.isDigit = [] :=
    dropWhile_all_nil hall
  unfold jsParseFloat
  simp [e1, e2, hdm, hdp, digitsToNat]

/-- Witness for C1 on a concrete document exercising every clause: a
comment, two `requests_total` series with different labels (the later one,
with a timestamp, wins: 7 overwrites 42), a blank line, and a sample whose
value token `..` fails numeric parsing and produces no entry. -/
theorem parsePrometheusMetrics_exposition_witness :
    (parsePrometheusMetrics "# HELP requests_total\nrequests_total{method=GET} 42\n\nrequests_total{method=POST} 7 1700000000\nbad_value ..").lookup
      "requests_total" = some 7 ∧
    (parsePrometheusMetrics "# HELP requests_total\nrequests_total{method=GET} 42\n\nrequests_total{method=POST} 7 1700000000\nbad_value ..").lookup
      "bad_value" = none := by
  constructor
  · rw [parsePrometheusMetrics_exposition
      [ExpoLine.comment " HELP requests_total",
       ExpoLine.sample ⟨"requests_total", some "method=GET", "42", none⟩,
       ExpoLine.blank "",
       ExpoLine.sample ⟨"requests_total", some "method=POST", "7",
         some "1700000000"⟩,
       ExpoLine.sample ⟨"bad_value", none, "..", none⟩]
      (by decide) _ (by decide) "requests_total"]
    show jsParseFloat "7".data = some 7
    rw [jsParseFloat_digits (by decide) (by decide)]
    norm_num [show digitsToNat "7".data = 7 from by decide]
  · rw [parsePrometheusMetrics_exposition
      [ExpoLine.comment " HELP requests_total",
       ExpoLine.sample ⟨"requests_total", some "method=GET", "42", none⟩,
       ExpoLine.blank "",
       ExpoLine.sample ⟨"requests_total", some "method=POST", "7",
         some "1700000000"⟩,
       ExpoLine.sample ⟨"bad_value", none, "..", none⟩]
      (by decide) _ (by decide) "bad_value"]
    rfl

end RailRepay
